import Mathlib

/-!
# tlskit: path based certificate provider

A shallow embedding of `pathbased.go` (package `tlskit`) and of
`pathreader/awssecretsmanager/secretsmanager.go`, together with the small part of
the Go libraries they call (`strings.Join`, `fmt.Sprintf` with the `%s` verb,
`github.com/pkg/errors`).

Conventions of the embedding:

* a Go `string` is a `String`, a `[]byte` is a `List UInt8` (the nil slice is `[]`);
* a Go `error` is an `Option GoError`, `none` being `nil`;
* a Go function returning `(T, error)` returns the pair `T × Option GoError`:
  both components are always present, exactly as in Go;
* a method call on an interface value (`PathReader.ReadPath`) may have effects, so
  the reader owns a state of type `σ` that is threaded through every call, and every
  call is recorded in a trace of events.
-/

namespace Tlskit

/-! ## Go values -/

/-- Go byte slice, with the nil slice identified with the empty one. -/
abbrev Bytes := List UInt8

/-- Non-nil Go error values: an error created from a text (`errors.New`, or any
error of a collaborator, identified by its text) and the wrapper that
`github.com/pkg/errors` builds around a cause. -/
inductive GoError where
  | new (msg : String)
  | withMessage (cause : GoError) (msg : String)
  deriving DecidableEq, Repr

/-- The method `Error()`: the wrapper of `pkg/errors` prints its message, a colon and
a blank, then the text of its cause. -/
def GoError.Error : GoError → String
  | .new msg => msg
  | .withMessage cause msg => msg ++ ": " ++ cause.Error

/-- The innermost cause of an error (`errors.Cause`). -/
def GoError.Cause : GoError → GoError
  | .new msg => .new msg
  | .withMessage cause _ => cause.Cause

/-! ## Library functions -/

/-- Whether the characters `sub` open the characters `s`. -/
def strings.startsWithChars : List Char → List Char → Bool
  | _, [] => true
  | [], _ :: _ => false
  | c :: s, d :: sub => c == d && strings.startsWithChars s sub

/-- Whether the characters `sub` occur contiguously in `s`. -/
def strings.containsChars : List Char → List Char → Bool
  | [], sub => strings.startsWithChars [] sub
  | c :: s, sub => strings.startsWithChars (c :: s) sub || strings.containsChars s sub

/-- Go `strings.Contains(s, substr)`. -/
def strings.Contains (s substr : String) : Bool :=
  strings.containsChars s.data substr.data

/-- Go `strings.Join(elems, sep)`. -/
def strings.Join : List String → String → String
  | [], _ => ""
  | [a], _ => a
  | a :: b :: rest, sep => a ++ sep ++ strings.Join (b :: rest) sep

/-- Expansion of a format: each `%s` is replaced by the next argument, and by the
marker of `fmt` when the arguments are exhausted. Only the verb `%s` is modelled. -/
def fmt.expand : List Char → List String → List Char
  | [], _ => []
  | c :: rest, args =>
    if c = '%' then
      match rest, args with
      | 's' :: rest2, a :: args2 => a.data ++ fmt.expand rest2 args2
      | 's' :: rest2, [] => "%!s(MISSING)".data ++ fmt.expand rest2 []
      | rest2, args2 => c :: fmt.expand rest2 args2
    else c :: fmt.expand rest args

/-- Go `fmt.Sprintf(format, args...)` for formats whose only verb is `%s` and whose
arguments are strings. -/
def fmt.Sprintf (format : String) (args : List String) : String :=
  ⟨fmt.expand format.data args⟩

/-- The function `errors.Wrap(err, message)` of `pkg/errors`: nil stays nil. -/
def errors.Wrap (err : Option GoError) (message : String) : Option GoError :=
  match err with
  | none => none
  | some e => some (GoError.withMessage e message)

/-- The function `errors.Wrapf(err, format, args...)` of `pkg/errors`. -/
def errors.Wrapf (err : Option GoError) (format : String) (args : List String) :
    Option GoError :=
  match err with
  | none => none
  | some e => some (GoError.withMessage e (fmt.Sprintf format args))

set_option linter.dupNamespace false in
/-- The struct `tls.Certificate` of `crypto/tls`, reduced to its certificate chain,
its private key and its parsed leaf, each as raw bytes. -/
structure tls.Certificate where
  Certificate : List Bytes := []
  PrivateKey : Option Bytes := none
  Leaf : Option Bytes := none
  deriving DecidableEq, Repr

/-- The type of `tls.X509KeyPair(certPEMBlock, keyPEMBlock)`: a key-pair parser. -/
abbrev tls.KeyPairParser := Bytes → Bytes → tls.Certificate × Option GoError

/-- The function `tls.X509KeyPair` of `crypto/tls`, the parser that `pathbased.go`
calls. What it decodes from the two PEM blocks is left open: `decode` gives, for each
pair of blocks, the certificate or the error of the step that fails. Every failure
leaves the function through its closure `fail`, which returns the zero certificate
together with the error. -/
def tls.X509KeyPair (decode : Bytes → Bytes → Except GoError tls.Certificate) :
    tls.KeyPairParser :=
  fun certPEMBlock keyPEMBlock =>
    match decode certPEMBlock keyPEMBlock with
    | Except.ok cert => (cert, none)
    | Except.error err => ({}, some err)

/-! ## pathbased.go -/

def defaultCertificateExtension : String := ".crt"

def defaultKeyExtension : String := ".key"

def defaultPathSeparator : String := "/"

structure PathProviderOptions where
  BasePath : String := ""
  PathSeparator : String := ""
  CertificateExtension : String := ""
  KeyExtension : String := ""
  deriving DecidableEq, Repr

/-- An option mutates the options it is given: here it returns the mutated options. -/
abbrev PathOption := PathProviderOptions → PathProviderOptions

/-- The interface `PathReader`: `ReadPath(path)` returns bytes and an error, and may
change the state of the reader. -/
structure PathReader (σ : Type) where
  ReadPath : String → σ → (Bytes × Option GoError) × σ

structure PathBasedProvider (σ : Type) where
  options : PathProviderOptions
  reader : PathReader σ

/-- What a provider does to the outside: a call of the reader, a call of the parser. -/
inductive Event where
  | readPath (path : String)
  | x509KeyPair (certPEMBlock keyPEMBlock : Bytes)
  deriving DecidableEq, Repr

/-- The state of the reader and the calls made so far, oldest first. -/
structure World (σ : Type) where
  state : σ
  trace : List Event

def makePath (separator : String) (elements : List String) : String :=
  strings.Join elements separator

def withExtension (name extension : String) : String :=
  name ++ extension

def NewPathBasedProvider {σ : Type} (reader : PathReader σ) (options : List PathOption) :
    PathBasedProvider σ :=
  let opts : PathProviderOptions :=
    { PathSeparator := defaultPathSeparator
      CertificateExtension := defaultCertificateExtension
      KeyExtension := defaultKeyExtension }
  let opts := options.foldl (fun opts option => option opts) opts
  { options := opts, reader := reader }

/-- The call `p.reader.ReadPath(path)`, recorded in the trace. -/
def PathBasedProvider.callReadPath {σ : Type} (p : PathBasedProvider σ) (path : String)
    (w : World σ) : (Bytes × Option GoError) × World σ :=
  let r := p.reader.ReadPath path w.state
  (r.1, { state := r.2, trace := w.trace ++ [Event.readPath path] })

/-- The call `tls.X509KeyPair(certData, keyData)`, recorded in the trace. -/
def callX509KeyPair {σ : Type} (parse : tls.KeyPairParser) (certData keyData : Bytes)
    (w : World σ) : (tls.Certificate × Option GoError) × World σ :=
  (parse certData keyData,
    { state := w.state, trace := w.trace ++ [Event.x509KeyPair certData keyData] })

def PathBasedProvider.CAPemCerts {σ : Type} (p : PathBasedProvider σ) (name : String)
    (w : World σ) : (Bytes × Option GoError) × World σ :=
  let name := makePath p.options.PathSeparator
    [p.options.BasePath, withExtension name p.options.CertificateExtension]
  let r := p.callReadPath name w
  let data := r.1.1
  let err := r.1.2
  if err ≠ none then
    (([], errors.Wrapf err "cannot read path %s" [name]), r.2)
  else
    ((data, none), r.2)

def PathBasedProvider.X509KeyPair {σ : Type} (parse : tls.KeyPairParser)
    (p : PathBasedProvider σ) (name : String) (w : World σ) :
    (tls.Certificate × Option GoError) × World σ :=
  let cert : tls.Certificate := {}
  let certPath := makePath p.options.PathSeparator
    [p.options.BasePath, withExtension name p.options.CertificateExtension]
  let r1 := p.callReadPath certPath w
  let certData := r1.1.1
  let err := r1.1.2
  if err ≠ none then
    ((cert, errors.Wrapf err "cannot read path %s" [certPath]), r1.2)
  else
    let keyPath := makePath p.options.PathSeparator
      [p.options.BasePath, withExtension name p.options.KeyExtension]
    let r2 := p.callReadPath keyPath r1.2
    let keyData := r2.1.1
    let err := r2.1.2
    if err ≠ none then
      ((cert, errors.Wrapf err "cannot read path %s" [keyPath]), r2.2)
    else
      let r3 := callX509KeyPair parse certData keyData r2.2
      let cert := r3.1.1
      let err := r3.1.2
      if err ≠ none then
        ((cert, errors.Wrap err "parse a public/private key pair"), r3.2)
      else
        ((cert, none), r3.2)

def WithBasePath (basePath : String) : PathOption :=
  fun options => { options with BasePath := basePath }

def WithPathSeparator (pathSeparator : String) : PathOption :=
  fun options => { options with PathSeparator := pathSeparator }

def WithCertificateExtension (extension : String) : PathOption :=
  fun options => { options with CertificateExtension := extension }

def WithKeyExtension (extension : String) : PathOption :=
  fun options => { options with KeyExtension := extension }

/-! ## Readers and parsers used as concrete inputs -/

/-- A reader without state that answers from a table, and fails on any other path. -/
def tableReader (values : List (String × (Bytes × Option GoError))) : PathReader Unit :=
  { ReadPath := fun path s =>
      match values.lookup path with
      | some v => (v, s)
      | none => (([], some (GoError.new "unexpected call")), s) }

/-- The resolved key of a name: base path, separator, name, extension. -/
def resolvedKey (o : PathProviderOptions) (name extension : String) : String :=
  o.BasePath ++ o.PathSeparator ++ name ++ extension

/-- The number of reader calls recorded in a trace. -/
def readCalls (t : List Event) : Nat :=
  (t.filter fun ev => match ev with
    | Event.readPath _ => true
    | Event.x509KeyPair _ _ => false).length

/-- The number of parser calls recorded in a trace. -/
def parseCalls (t : List Event) : Nat :=
  (t.filter fun ev => match ev with
    | Event.readPath _ => false
    | Event.x509KeyPair _ _ => true).length

/-- The paths of the reader calls recorded in a trace, oldest first. -/
def readPaths : List Event → List String
  | [] => []
  | Event.readPath path :: t => path :: readPaths t
  | Event.x509KeyPair _ _ :: t => readPaths t

/-- A decoding that accepts nothing and reports the given text. -/
def rejectingDecode (text : String) : Bytes → Bytes → Except GoError tls.Certificate :=
  fun _ _ => Except.error (GoError.new text)

/-- A parser that accepts nothing and reports the given text, with a zero certificate. -/
def rejectingParser (text : String) : tls.KeyPairParser :=
  fun _ _ => ({}, some (GoError.new text))

/-- A parser that accepts everything: the chain is the certificate block, the key
is the key block. -/
def acceptingParser : tls.KeyPairParser :=
  fun c k => ({ Certificate := [c], PrivateKey := some k }, none)

/-- The world before any call, for a reader without state. -/
def emptyWorld : World Unit := { state := (), trace := [] }

/-! ## pathreader/awssecretsmanager/secretsmanager.go -/

/-- How a Go call ends: it returns its results, or it panics at run time. -/
inductive GoResult (α : Type) where
  | returned (value : α)
  | panicked (reason : String)
  deriving DecidableEq, Repr

/-- Go conversion `[]byte(s)`: the UTF-8 bytes of the string. -/
def bytesOfString (s : String) : Bytes :=
  s.toUTF8.data.toList

/-- The function `aws.String(v)`: a pointer to the string. -/
def aws.String (v : String) : Option String := some v

/-- The struct `secretsmanager.GetSecretValueInput`; every field is a pointer. -/
structure secretsmanager.GetSecretValueInput where
  SecretId : Option String := none
  VersionId : Option String := none
  VersionStage : Option String := none
  deriving DecidableEq, Repr

/-- The struct `secretsmanager.GetSecretValueOutput`; `SecretString` is a pointer
that the service leaves nil for a secret stored as binary. -/
structure secretsmanager.GetSecretValueOutput where
  ARN : Option String := none
  Name : Option String := none
  SecretBinary : Bytes := []
  SecretString : Option String := none
  VersionId : Option String := none
  VersionStages : List String := []
  deriving DecidableEq, Repr

namespace awssecretsmanager

/-- The interface `SecretsManager`: the response is a pointer, so it may be nil. -/
structure SecretsManager where
  GetSecretValue : secretsmanager.GetSecretValueInput →
    Option secretsmanager.GetSecretValueOutput × Option GoError

structure PathReader where
  secretsManagerClient : SecretsManager

def NewPathReader (secretsManagerClient : SecretsManager) : PathReader :=
  { secretsManagerClient := secretsManagerClient }

def PathReader.ReadPath (r : PathReader) (path : String) :
    GoResult (Bytes × Option GoError) :=
  let input : secretsmanager.GetSecretValueInput := { SecretId := aws.String path }
  let res := r.secretsManagerClient.GetSecretValue input
  let out := res.1
  let err := res.2
  if err ≠ none then
    GoResult.returned
      ([], errors.Wrapf err "PathReader: cannot get secret value by id %s" [path])
  else
    match out with
    | none => GoResult.panicked "invalid memory address or nil pointer dereference"
    | some o =>
      match o.SecretString with
      | none => GoResult.panicked "invalid memory address or nil pointer dereference"
      | some v => GoResult.returned (bytesOfString v, none)

/-- The client of the tests: it answers every request with the same pair. -/
def mockSecretsManager (out : Option secretsmanager.GetSecretValueOutput)
    (err : Option GoError) : SecretsManager :=
  { GetSecretValue := fun _ => (out, err) }

end awssecretsmanager

/-! ## Directives -/

/-- A field of the configuration. -/
inductive Field where
  | basePath
  | pathSeparator
  | certificateExtension
  | keyExtension
  deriving DecidableEq, Repr

/-- A directive: one of the four option constructors applied to its argument. -/
inductive Directive where
  | withBasePath (basePath : String)
  | withPathSeparator (pathSeparator : String)
  | withCertificateExtension (extension : String)
  | withKeyExtension (extension : String)
  deriving DecidableEq, Repr

/-- The option that a directive stands for. -/
def Directive.toOption : Directive → PathOption
  | .withBasePath v => WithBasePath v
  | .withPathSeparator v => WithPathSeparator v
  | .withCertificateExtension v => WithCertificateExtension v
  | .withKeyExtension v => WithKeyExtension v

/-- The field that a directive targets. -/
def Directive.target : Directive → Field
  | .withBasePath _ => Field.basePath
  | .withPathSeparator _ => Field.pathSeparator
  | .withCertificateExtension _ => Field.certificateExtension
  | .withKeyExtension _ => Field.keyExtension

/-- The value that a directive gives to its field. -/
def Directive.value : Directive → String
  | .withBasePath v => v
  | .withPathSeparator v => v
  | .withCertificateExtension v => v
  | .withKeyExtension v => v

/-- Reading a field of the options. -/
def PathProviderOptions.field (o : PathProviderOptions) : Field → String
  | Field.basePath => o.BasePath
  | Field.pathSeparator => o.PathSeparator
  | Field.certificateExtension => o.CertificateExtension
  | Field.keyExtension => o.KeyExtension

/-- The documented default of each field: base path empty, separator `/`,
certificate extension `.crt`, key extension `.key`. -/
def specDefault : Field → String
  | Field.basePath => ""
  | Field.pathSeparator => "/"
  | Field.certificateExtension => ".crt"
  | Field.keyExtension => ".key"

/-- The documented configuration, last write wins: the value of the last directive
of the list that targets the field, the default when no directive targets it. -/
def specLastWriteWins (f : Field) (ds : List Directive) : String :=
  match ds.reverse.find? (fun d => d.target = f) with
  | some d => d.value
  | none => specDefault f

/-! ## Concrete inputs -/

/-- The default provider over a table with a certificate authority bundle. -/
def caProvider : PathBasedProvider Unit :=
  NewPathBasedProvider (tableReader [("/ca.crt", ([1, 2, 3], none))]) []

/-- The default provider over a table with a certificate and its key. -/
def pairProvider : PathBasedProvider Unit :=
  NewPathBasedProvider
    (tableReader [("/testing.crt", ([10, 11], none)), ("/testing.key", ([20, 21], none))]) []

/-- The default provider over a table whose certificate read fails. -/
def failingCertProvider : PathBasedProvider Unit :=
  NewPathBasedProvider
    (tableReader [("/testing.crt", ([], some (GoError.new "some error")))]) []

/-- The default provider over a table whose key read fails. -/
def failingKeyProvider : PathBasedProvider Unit :=
  NewPathBasedProvider
    (tableReader [("/testing.crt", ([10, 11], none)),
      ("/testing.key", ([], some (GoError.new "some error")))]) []

/-! ## Library lemmas -/

theorem strings.startsWithChars_append (sub rest : List Char) :
    strings.startsWithChars (sub ++ rest) sub = true := by
  induction sub with
  | nil => cases rest <;> rfl
  | cons c sub ih => simp [strings.startsWithChars, ih]

theorem strings.containsChars_of_startsWith (s sub : List Char)
    (h : strings.startsWithChars s sub = true) : strings.containsChars s sub = true := by
  cases s with
  | nil => simpa [strings.containsChars] using h
  | cons c s => simp [strings.containsChars, h]

theorem strings.containsChars_append (pre sub post : List Char) :
    strings.containsChars (pre ++ (sub ++ post)) sub = true := by
  induction pre with
  | nil =>
    exact strings.containsChars_of_startsWith _ _ (strings.startsWithChars_append sub post)
  | cons c pre ih =>
    show (strings.startsWithChars (c :: (pre ++ (sub ++ post))) sub
      || strings.containsChars (pre ++ (sub ++ post)) sub) = true
    rw [ih, Bool.or_true]

theorem strings.Contains_of_eq (s pre sub post : String) (h : s = pre ++ sub ++ post) :
    strings.Contains s sub = true := by
  subst h
  simp only [strings.Contains, String.data_append, List.append_assoc]
  exact strings.containsChars_append _ _ _

theorem makePath_two (separator a b : String) :
    makePath separator [a, b] = a ++ separator ++ b := rfl

theorem makePath_withExtension (o : PathProviderOptions) (name extension : String) :
    makePath o.PathSeparator [o.BasePath, withExtension name extension]
      = resolvedKey o name extension := by
  simp [makePath_two, withExtension, resolvedKey, String.append_assoc]

theorem Sprintf_cannot_read_path (path : String) :
    fmt.Sprintf "cannot read path %s" [path] = "cannot read path " ++ path := by
  apply String.ext
  simp [fmt.Sprintf, fmt.expand]


/-! ## The two operations, unfolded -/

theorem CAPemCerts_eq {σ : Type} (p : PathBasedProvider σ) (name : String) (w : World σ) :
    p.CAPemCerts name w =
      (let key := resolvedKey p.options name p.options.CertificateExtension
       let r := p.reader.ReadPath key w.state
       let w1 : World σ := { state := r.2, trace := w.trace ++ [Event.readPath key] }
       if r.1.2 ≠ none then
         (([], errors.Wrapf r.1.2 "cannot read path %s" [key]), w1)
       else ((r.1.1, none), w1)) := by
  simp only [PathBasedProvider.CAPemCerts, PathBasedProvider.callReadPath,
    makePath_withExtension]

theorem X509KeyPair_eq {σ : Type} (parse : tls.KeyPairParser) (p : PathBasedProvider σ)
    (name : String) (w : World σ) :
    p.X509KeyPair parse name w =
      (let certKey := resolvedKey p.options name p.options.CertificateExtension
       let keyKey := resolvedKey p.options name p.options.KeyExtension
       let r1 := p.reader.ReadPath certKey w.state
       let w1 : World σ := { state := r1.2, trace := w.trace ++ [Event.readPath certKey] }
       if r1.1.2 ≠ none then
         (({}, errors.Wrapf r1.1.2 "cannot read path %s" [certKey]), w1)
       else
         let r2 := p.reader.ReadPath keyKey r1.2
         let w2 : World σ :=
           { state := r2.2, trace := w1.trace ++ [Event.readPath keyKey] }
         if r2.1.2 ≠ none then
           (({}, errors.Wrapf r2.1.2 "cannot read path %s" [keyKey]), w2)
         else
           let r3 := parse r1.1.1 r2.1.1
           let w3 : World σ :=
             { state := r2.2, trace := w2.trace ++ [Event.x509KeyPair r1.1.1 r2.1.1] }
           if r3.2 ≠ none then
             ((r3.1, errors.Wrap r3.2 "parse a public/private key pair"), w3)
           else ((r3.1, none), w3)) := by
  simp only [PathBasedProvider.X509KeyPair, PathBasedProvider.callReadPath,
    callX509KeyPair, makePath_withExtension]

/-- The text of a wrapped read failure holds the text of its cause and the key. -/
theorem wrapped_read_error_text (e : GoError) (key : String) :
    strings.Contains (GoError.withMessage e (fmt.Sprintf "cannot read path %s" [key])).Error
        e.Error = true
      ∧ strings.Contains
          (GoError.withMessage e (fmt.Sprintf "cannot read path %s" [key])).Error key
        = true := by
  rw [Sprintf_cannot_read_path]
  constructor
  · exact strings.Contains_of_eq _ ("cannot read path " ++ key ++ ": ") e.Error ""
      (by simp [GoError.Error, String.append_assoc])
  · exact strings.Contains_of_eq _ "cannot read path " key (": " ++ e.Error)
      (by simp [GoError.Error, String.append_assoc])

/-! ## Claims -/

/-- C1: for every provider (hence every base path, separator and certificate
extension), reader, name `n` and starting world, `CAPemCerts n` makes the reader call
with the key `basePath ++ separator ++ n ++ certificateExtension`; with an empty base
path that key is the separator followed by the name and the extension; and when the
reader answers that key with bytes `b` and no error, the result is `b` and no error. -/
theorem CAPemCerts_reads_resolved_key {σ : Type} (p : PathBasedProvider σ) (n : String)
    (w : World σ) :
    (p.CAPemCerts n w).2.trace = w.trace ++ [Event.readPath
        (p.options.BasePath ++ p.options.PathSeparator ++ n
          ++ p.options.CertificateExtension)]
      ∧ (p.options.BasePath = "" →
          (p.CAPemCerts n w).2.trace = w.trace ++ [Event.readPath
            (p.options.PathSeparator ++ n ++ p.options.CertificateExtension)])
      ∧ ∀ b : Bytes,
          (p.reader.ReadPath (p.options.BasePath ++ p.options.PathSeparator ++ n
            ++ p.options.CertificateExtension) w.state).1 = (b, none) →
          (p.CAPemCerts n w).1 = (b, none) := by
  have htrace : (p.CAPemCerts n w).2.trace = w.trace ++ [Event.readPath
      (p.options.BasePath ++ p.options.PathSeparator ++ n
        ++ p.options.CertificateExtension)] := by
    rw [CAPemCerts_eq]
    simp only [resolvedKey]
    split <;> rfl
  refine ⟨htrace, ?_, ?_⟩
  · intro hbase
    rw [htrace, hbase]
    simp
  · intro b hb
    rw [CAPemCerts_eq]
    simp only [resolvedKey, hb]
    simp

/-- C1 at the default provider and the name `ca`: the key is `/ca.crt` and the bytes
of the table come back unchanged. -/
theorem CAPemCerts_reads_resolved_key_witness :
    (caProvider.CAPemCerts "ca" emptyWorld).2.trace = [Event.readPath "/ca.crt"]
      ∧ (caProvider.CAPemCerts "ca" emptyWorld).1 = ([1, 2, 3], none) :=
  ⟨((CAPemCerts_reads_resolved_key caProvider "ca" emptyWorld).2.1 (by decide)),
    (CAPemCerts_reads_resolved_key caProvider "ca" emptyWorld).2.2 [1, 2, 3] (by decide)⟩

/-- C2: for every parser, provider, name and starting world, when the read of
`basePath ++ separator ++ n ++ certificateExtension` succeeds with bytes `c`, the next
call of `X509KeyPair n` is the read of `basePath ++ separator ++ n ++ keyExtension`,
made in the state the first read left; and when that read succeeds with bytes `k` and
the parser answers `(c, k)` with the pair `P` and no error, `X509KeyPair` returns `P`
and no error, having made exactly these two reads and one parser call, in this order. -/
theorem X509KeyPair_reads_cert_then_key {σ : Type} (parse : tls.KeyPairParser)
    (p : PathBasedProvider σ) (n : String) (w : World σ) (c : Bytes) (s1 : σ)
    (hc : p.reader.ReadPath (p.options.BasePath ++ p.options.PathSeparator ++ n
      ++ p.options.CertificateExtension) w.state = ((c, none), s1)) :
    (∃ rest, (p.X509KeyPair parse n w).2.trace = w.trace ++
        Event.readPath (p.options.BasePath ++ p.options.PathSeparator ++ n
          ++ p.options.CertificateExtension)
        :: Event.readPath (p.options.BasePath ++ p.options.PathSeparator ++ n
          ++ p.options.KeyExtension) :: rest)
      ∧ ∀ (k : Bytes) (s2 : σ) (P : tls.Certificate),
          p.reader.ReadPath (p.options.BasePath ++ p.options.PathSeparator ++ n
            ++ p.options.KeyExtension) s1 = ((k, none), s2) →
          parse c k = (P, none) →
          (p.X509KeyPair parse n w).1 = (P, none)
            ∧ (p.X509KeyPair parse n w).2.state = s2
            ∧ (p.X509KeyPair parse n w).2.trace = w.trace ++
                [Event.readPath (p.options.BasePath ++ p.options.PathSeparator ++ n
                  ++ p.options.CertificateExtension),
                 Event.readPath (p.options.BasePath ++ p.options.PathSeparator ++ n
                  ++ p.options.KeyExtension),
                 Event.x509KeyPair c k] := by
  constructor
  · rw [X509KeyPair_eq]
    simp only [resolvedKey, hc]
    split
    · rename_i h
      exact absurd rfl h
    · split
      · exact ⟨[], by simp⟩
      · split
        · exact ⟨[Event.x509KeyPair _ _], by simp; exact ⟨rfl, rfl⟩⟩
        · exact ⟨[Event.x509KeyPair _ _], by simp; exact ⟨rfl, rfl⟩⟩
  · intro k s2 P hk hp
    rw [X509KeyPair_eq]
    simp only [resolvedKey, hc, hk, hp]
    simp

/-- C2 at the default provider and the name `testing`: the reads are `/testing.crt`
then `/testing.key`, and the pair of the parser comes back without error. -/
theorem X509KeyPair_reads_cert_then_key_witness :
    (pairProvider.X509KeyPair acceptingParser "testing" emptyWorld).1
        = ({ Certificate := [[10, 11]], PrivateKey := some [20, 21] }, none)
      ∧ (pairProvider.X509KeyPair acceptingParser "testing" emptyWorld).2.state = ()
      ∧ (pairProvider.X509KeyPair acceptingParser "testing" emptyWorld).2.trace
        = [Event.readPath "/testing.crt", Event.readPath "/testing.key",
            Event.x509KeyPair [10, 11] [20, 21]] :=
  (X509KeyPair_reads_cert_then_key acceptingParser pairProvider "testing" emptyWorld
    [10, 11] () (by decide)).2 [20, 21] () _ (by decide) (by decide)

/-- C3: for every parser, provider, name and starting world, if the reader answers
the certificate key with an error then `X509KeyPair` returns an error, and the only
call it makes is that one read: one more reader call than before, no parser call, and
no read of the private-key key. -/
theorem X509KeyPair_cert_failure_short_circuits {σ : Type} (parse : tls.KeyPairParser)
    (p : PathBasedProvider σ) (n : String) (w : World σ) (e : GoError)
    (hc : (p.reader.ReadPath (p.options.BasePath ++ p.options.PathSeparator ++ n
      ++ p.options.CertificateExtension) w.state).1.2 = some e) :
    (p.X509KeyPair parse n w).1.2 ≠ none
      ∧ (p.X509KeyPair parse n w).2.trace = w.trace ++
          [Event.readPath (p.options.BasePath ++ p.options.PathSeparator ++ n
            ++ p.options.CertificateExtension)]
      ∧ readCalls (p.X509KeyPair parse n w).2.trace = readCalls w.trace + 1
      ∧ parseCalls (p.X509KeyPair parse n w).2.trace = parseCalls w.trace := by
  rw [X509KeyPair_eq]
  simp only [resolvedKey, hc]
  simp [errors.Wrapf, readCalls, parseCalls]

/-- C3 at a table whose certificate entry is an error: one read, of `/testing.crt`. -/
theorem X509KeyPair_cert_failure_short_circuits_witness :
    (failingCertProvider.X509KeyPair acceptingParser "testing" emptyWorld).1.2 ≠ none
      ∧ (failingCertProvider.X509KeyPair acceptingParser "testing" emptyWorld).2.trace
        = [Event.readPath "/testing.crt"]
      ∧ readCalls (failingCertProvider.X509KeyPair acceptingParser "testing"
          emptyWorld).2.trace = 1
      ∧ parseCalls (failingCertProvider.X509KeyPair acceptingParser "testing"
          emptyWorld).2.trace = 0 :=
  X509KeyPair_cert_failure_short_circuits acceptingParser failingCertProvider "testing"
    emptyWorld (GoError.new "some error") (by decide)

/-- C4: for every parser, provider, name, starting world and reader error `e`:
if the reader answers the certificate key with `e`, then `CAPemCerts` returns a
non-nil error whose text contains the text of `e` and the certificate key, and so does
`X509KeyPair`; and if the certificate read succeeds and the reader then answers the
private-key key with `e`, `X509KeyPair` returns a non-nil error whose text contains
the text of `e` and the private-key key. -/
theorem read_errors_carry_cause_and_key {σ : Type} (parse : tls.KeyPairParser)
    (p : PathBasedProvider σ) (n : String) (w : World σ) (e : GoError) :
    ((p.reader.ReadPath (p.options.BasePath ++ p.options.PathSeparator ++ n
        ++ p.options.CertificateExtension) w.state).1.2 = some e →
      ∃ e2, (p.CAPemCerts n w).1.2 = some e2
        ∧ strings.Contains e2.Error e.Error = true
        ∧ strings.Contains e2.Error (p.options.BasePath ++ p.options.PathSeparator ++ n
            ++ p.options.CertificateExtension) = true)
      ∧ ((p.reader.ReadPath (p.options.BasePath ++ p.options.PathSeparator ++ n
          ++ p.options.CertificateExtension) w.state).1.2 = some e →
        ∃ e2, (p.X509KeyPair parse n w).1.2 = some e2
          ∧ strings.Contains e2.Error e.Error = true
          ∧ strings.Contains e2.Error (p.options.BasePath ++ p.options.PathSeparator ++ n
              ++ p.options.CertificateExtension) = true)
      ∧ (∀ (c : Bytes) (s1 : σ),
        p.reader.ReadPath (p.options.BasePath ++ p.options.PathSeparator ++ n
          ++ p.options.CertificateExtension) w.state = ((c, none), s1) →
        (p.reader.ReadPath (p.options.BasePath ++ p.options.PathSeparator ++ n
          ++ p.options.KeyExtension) s1).1.2 = some e →
        ∃ e2, (p.X509KeyPair parse n w).1.2 = some e2
          ∧ strings.Contains e2.Error e.Error = true
          ∧ strings.Contains e2.Error (p.options.BasePath ++ p.options.PathSeparator ++ n
              ++ p.options.KeyExtension) = true) := by
  refine ⟨?_, ?_, ?_⟩
  · intro hc
    refine ⟨GoError.withMessage e (fmt.Sprintf "cannot read path %s"
      [p.options.BasePath ++ p.options.PathSeparator ++ n
        ++ p.options.CertificateExtension]), ?_, wrapped_read_error_text e _⟩
    rw [CAPemCerts_eq]
    simp only [resolvedKey, hc]
    simp [errors.Wrapf]
  · intro hc
    refine ⟨GoError.withMessage e (fmt.Sprintf "cannot read path %s"
      [p.options.BasePath ++ p.options.PathSeparator ++ n
        ++ p.options.CertificateExtension]), ?_, wrapped_read_error_text e _⟩
    rw [X509KeyPair_eq]
    simp only [resolvedKey, hc]
    simp [errors.Wrapf]
  · intro c s1 hc hk
    refine ⟨GoError.withMessage e (fmt.Sprintf "cannot read path %s"
      [p.options.BasePath ++ p.options.PathSeparator ++ n
        ++ p.options.KeyExtension]), ?_, wrapped_read_error_text e _⟩
    rw [X509KeyPair_eq]
    simp only [resolvedKey, hc, hk]
    simp [errors.Wrapf]

/-- C4 at three tables: a failing certificate read under `CAPemCerts`, the same
under `X509KeyPair`, and a failing key read after a good certificate read. -/
theorem read_errors_carry_cause_and_key_witness :
    (∃ e2, (failingCertProvider.CAPemCerts "testing" emptyWorld).1.2 = some e2
        ∧ strings.Contains e2.Error "some error" = true
        ∧ strings.Contains e2.Error "/testing.crt" = true)
      ∧ (∃ e2, (failingCertProvider.X509KeyPair acceptingParser "testing"
            emptyWorld).1.2 = some e2
          ∧ strings.Contains e2.Error "some error" = true
          ∧ strings.Contains e2.Error "/testing.crt" = true)
      ∧ (∃ e2, (failingKeyProvider.X509KeyPair acceptingParser "testing"
            emptyWorld).1.2 = some e2
          ∧ strings.Contains e2.Error "some error" = true
          ∧ strings.Contains e2.Error "/testing.key" = true) :=
  ⟨(read_errors_carry_cause_and_key acceptingParser failingCertProvider "testing"
      emptyWorld (GoError.new "some error")).1 (by decide),
    (read_errors_carry_cause_and_key acceptingParser failingCertProvider "testing"
      emptyWorld (GoError.new "some error")).2.1 (by decide),
    (read_errors_carry_cause_and_key acceptingParser failingKeyProvider "testing"
      emptyWorld (GoError.new "some error")).2.2 [10, 11] () (by decide) (by decide)⟩

/-- C5: for every parser, provider, name and starting world, when the certificate
read and the key read succeed with bytes `c` and `k` and the parser answers `(c, k)`
with an error `e` (and any certificate), `X509KeyPair` returns a non-nil error that
wraps `e`: it is `e` under the message `parse a public/private key pair`, its
innermost cause is the one of `e`, and its text contains the text of `e`. -/
theorem X509KeyPair_parse_failure_wraps {σ : Type} (parse : tls.KeyPairParser)
    (p : PathBasedProvider σ) (n : String) (w : World σ) (c k : Bytes) (s1 s2 : σ)
    (P : tls.Certificate) (e : GoError)
    (hc : p.reader.ReadPath (p.options.BasePath ++ p.options.PathSeparator ++ n
      ++ p.options.CertificateExtension) w.state = ((c, none), s1))
    (hk : p.reader.ReadPath (p.options.BasePath ++ p.options.PathSeparator ++ n
      ++ p.options.KeyExtension) s1 = ((k, none), s2))
    (hp : parse c k = (P, some e)) :
    ∃ e2, (p.X509KeyPair parse n w).1.2 = some e2
      ∧ e2 = GoError.withMessage e "parse a public/private key pair"
      ∧ e2.Cause = e.Cause
      ∧ strings.Contains e2.Error e.Error = true := by
  refine ⟨GoError.withMessage e "parse a public/private key pair", ?_, rfl, rfl, ?_⟩
  · rw [X509KeyPair_eq]
    simp only [resolvedKey, hc, hk, hp]
    simp [errors.Wrap]
  · exact strings.Contains_of_eq _ "parse a public/private key pair: " e.Error ""
      (by simp [GoError.Error])

/-- C5 at a parser that reports a mismatch of the two keys. -/
theorem X509KeyPair_parse_failure_wraps_witness :
    ∃ e2, (pairProvider.X509KeyPair
          (rejectingParser "tls: private key does not match public key")
          "testing" emptyWorld).1.2 = some e2
      ∧ e2 = GoError.withMessage
          (GoError.new "tls: private key does not match public key")
          "parse a public/private key pair"
      ∧ e2.Cause = GoError.new "tls: private key does not match public key"
      ∧ strings.Contains e2.Error "tls: private key does not match public key" = true :=
  X509KeyPair_parse_failure_wraps
    (rejectingParser "tls: private key does not match public key") pairProvider
    "testing" emptyWorld [10, 11] [20, 21] () () _
    (GoError.new "tls: private key does not match public key")
    (by decide) (by decide) rfl

/-- Applying directives in order leaves in each field the value of the last
directive that targets it, and the starting value when there is none. -/
theorem foldl_directives_field (f : Field) (ds : List Directive)
    (opts : PathProviderOptions) :
    ((ds.map Directive.toOption).foldl (fun opts option => option opts) opts).field f
      = match ds.reverse.find? (fun d => d.target = f) with
        | some d => d.value
        | none => opts.field f := by
  induction ds generalizing opts with
  | nil => rfl
  | cons d ds ih =>
    rw [List.map_cons, List.foldl_cons, ih, List.reverse_cons, List.find?_append]
    cases hfind : ds.reverse.find? (fun d => d.target = f) with
    | some d2 => rfl
    | none =>
      cases d <;> cases f <;> rfl

/-- C6: for every reader and every list of directives, each field of the options of
the provider that `NewPathBasedProvider` builds from them is the value of the last
directive of the list that targets the field, and the default (base path empty,
separator `/`, certificate extension `.crt`, key extension `.key`) when none does; the
reader is the one given; with no directive at all the four defaults stand; and
`WithBasePath "/a"` followed by `WithBasePath "/b"` leaves the base path `/b`. -/
theorem NewPathBasedProvider_last_write_wins {σ : Type} (reader : PathReader σ)
    (ds : List Directive) :
    (∀ f : Field,
        (NewPathBasedProvider reader (ds.map Directive.toOption)).options.field f
          = specLastWriteWins f ds)
      ∧ (NewPathBasedProvider reader (ds.map Directive.toOption)).reader = reader
      ∧ (NewPathBasedProvider reader []).options
          = { BasePath := "", PathSeparator := "/", CertificateExtension := ".crt",
              KeyExtension := ".key" }
      ∧ (NewPathBasedProvider reader [WithBasePath "/a", WithBasePath "/b"]).options.BasePath
          = "/b" := by
  refine ⟨?_, rfl, rfl, rfl⟩
  intro f
  simp only [NewPathBasedProvider, specLastWriteWins]
  rw [foldl_directives_field]
  cases ds.reverse.find? (fun d => d.target = f) with
  | some d => rfl
  | none => cases f <;> rfl

/-- The certificate that comes with an error is the zero value after a failed read,
and the certificate of the parser after a failed parse. -/
theorem X509KeyPair_error_certificate {σ : Type} (parse : tls.KeyPairParser)
    (p : PathBasedProvider σ) (n : String) (w : World σ)
    (herr : (p.X509KeyPair parse n w).1.2 ≠ none) :
    (p.X509KeyPair parse n w).1.1 = {}
      ∨ ∃ c k, (parse c k).2 ≠ none ∧ (p.X509KeyPair parse n w).1.1 = (parse c k).1 := by
  rw [X509KeyPair_eq] at herr ⊢
  simp only at herr ⊢
  split
  · exact Or.inl rfl
  · split
    · exact Or.inl rfl
    · split
      · rename_i h
        exact Or.inr ⟨_, _, h, rfl⟩
      · rename_i h1 h2 h3
        rw [if_neg h1, if_neg h2, if_neg h3] at herr
        exact absurd rfl herr

/-- With a parser that returns the zero certificate whenever it returns an error,
the certificate that comes with an error of `X509KeyPair` is the zero value. -/
theorem X509KeyPair_zero_certificate_of_contract {σ : Type} (parse : tls.KeyPairParser)
    (p : PathBasedProvider σ) (n : String) (w : World σ)
    (hparse : ∀ c k, (parse c k).2 ≠ none → (parse c k).1 = {})
    (herr : (p.X509KeyPair parse n w).1.2 ≠ none) :
    (p.X509KeyPair parse n w).1.1 = {} := by
  rcases X509KeyPair_error_certificate parse p n w herr with h | ⟨c, k, hne, h⟩
  · exact h
  · rw [h]
    exact hparse c k hne

/-- The parser of `crypto/tls` returns the zero certificate with every error. -/
theorem tls.X509KeyPair_zero_on_error
    (decode : Bytes → Bytes → Except GoError tls.Certificate) (c k : Bytes)
    (h : (tls.X509KeyPair decode c k).2 ≠ none) : (tls.X509KeyPair decode c k).1 = {} := by
  unfold tls.X509KeyPair at h ⊢
  cases hd : decode c k with
  | ok cert => simp [hd] at h
  | error err => rfl

/-- C7: for every provider (configuration and reader), name and starting world, and
whatever the parser `tls.X509KeyPair` decodes or rejects, whenever `X509KeyPair`
returns a non-nil error (from a failed certificate read, a failed key read or a
failed parse) the certificate it returns is the zero value: never an error together
with a non-empty certificate. -/
theorem X509KeyPair_no_partial_result {σ : Type}
    (decode : Bytes → Bytes → Except GoError tls.Certificate)
    (p : PathBasedProvider σ) (n : String) (w : World σ)
    (herr : (p.X509KeyPair (tls.X509KeyPair decode) n w).1.2 ≠ none) :
    (p.X509KeyPair (tls.X509KeyPair decode) n w).1.1 = {} :=
  X509KeyPair_zero_certificate_of_contract (tls.X509KeyPair decode) p n w
    (tls.X509KeyPair_zero_on_error decode) herr

/-- C7 at three inputs: a failed parse after two good reads, a failed key read and a
failed certificate read each give an error with the zero certificate. -/
theorem X509KeyPair_no_partial_result_witness :
    ((pairProvider.X509KeyPair
            (tls.X509KeyPair (rejectingDecode "tls: private key does not match public key"))
            "testing" emptyWorld).1.2 ≠ none
        ∧ (pairProvider.X509KeyPair
            (tls.X509KeyPair (rejectingDecode "tls: private key does not match public key"))
            "testing" emptyWorld).1.1 = {})
      ∧ (failingKeyProvider.X509KeyPair
            (tls.X509KeyPair (rejectingDecode "tls: private key does not match public key"))
            "testing" emptyWorld).1.1 = {}
      ∧ (failingCertProvider.X509KeyPair
            (tls.X509KeyPair (rejectingDecode "tls: private key does not match public key"))
            "testing" emptyWorld).1.1 = {} :=
  ⟨⟨by decide,
      X509KeyPair_no_partial_result
        (rejectingDecode "tls: private key does not match public key") pairProvider
        "testing" emptyWorld (by decide)⟩,
    X509KeyPair_no_partial_result
      (rejectingDecode "tls: private key does not match public key") failingKeyProvider
      "testing" emptyWorld (by decide),
    X509KeyPair_no_partial_result
      (rejectingDecode "tls: private key does not match public key") failingCertProvider
      "testing" emptyWorld (by decide)⟩

theorem readPaths_append (t u : List Event) :
    readPaths (t ++ u) = readPaths t ++ readPaths u := by
  induction t with
  | nil => rfl
  | cons ev t ih => cases ev <;> simp [readPaths, ih]

theorem readCalls_append (t u : List Event) :
    readCalls (t ++ u) = readCalls t + readCalls u := by
  simp [readCalls]

/-- C8: for every parser, provider, name and starting world: `CAPemCerts` makes
exactly one reader call, of the certificate key, whatever the reader answers;
`X509KeyPair` makes at most two reader calls: exactly one, of the certificate key,
when the certificate read fails, and exactly two, of the certificate key then of the
private-key key, when it succeeds, whatever the key read and the parser answer. -/
theorem reader_call_counts {σ : Type} (parse : tls.KeyPairParser)
    (p : PathBasedProvider σ) (n : String) (w : World σ) :
    (readCalls (p.CAPemCerts n w).2.trace = readCalls w.trace + 1
        ∧ readPaths (p.CAPemCerts n w).2.trace = readPaths w.trace ++
            [p.options.BasePath ++ p.options.PathSeparator ++ n
              ++ p.options.CertificateExtension])
      ∧ readCalls (p.X509KeyPair parse n w).2.trace ≤ readCalls w.trace + 2
      ∧ ((p.reader.ReadPath (p.options.BasePath ++ p.options.PathSeparator ++ n
            ++ p.options.CertificateExtension) w.state).1.2 = none →
          readCalls (p.X509KeyPair parse n w).2.trace = readCalls w.trace + 2
            ∧ readPaths (p.X509KeyPair parse n w).2.trace = readPaths w.trace ++
                [p.options.BasePath ++ p.options.PathSeparator ++ n
                  ++ p.options.CertificateExtension,
                 p.options.BasePath ++ p.options.PathSeparator ++ n
                  ++ p.options.KeyExtension])
      ∧ ((p.reader.ReadPath (p.options.BasePath ++ p.options.PathSeparator ++ n
            ++ p.options.CertificateExtension) w.state).1.2 ≠ none →
          readCalls (p.X509KeyPair parse n w).2.trace = readCalls w.trace + 1
            ∧ readPaths (p.X509KeyPair parse n w).2.trace = readPaths w.trace ++
                [p.options.BasePath ++ p.options.PathSeparator ++ n
                  ++ p.options.CertificateExtension]) := by
  have hok : (p.reader.ReadPath (p.options.BasePath ++ p.options.PathSeparator ++ n
        ++ p.options.CertificateExtension) w.state).1.2 = none →
      readCalls (p.X509KeyPair parse n w).2.trace = readCalls w.trace + 2
        ∧ readPaths (p.X509KeyPair parse n w).2.trace = readPaths w.trace ++
            [p.options.BasePath ++ p.options.PathSeparator ++ n
              ++ p.options.CertificateExtension,
             p.options.BasePath ++ p.options.PathSeparator ++ n
              ++ p.options.KeyExtension] := by
    intro hc
    rw [X509KeyPair_eq]
    simp only [resolvedKey, hc]
    split
    · rename_i h
      exact absurd rfl h
    · split
      · simp [readCalls_append, readPaths_append, readCalls, readPaths]
      · split <;> simp [readCalls_append, readPaths_append, readCalls, readPaths]
  have hfail : (p.reader.ReadPath (p.options.BasePath ++ p.options.PathSeparator ++ n
        ++ p.options.CertificateExtension) w.state).1.2 ≠ none →
      readCalls (p.X509KeyPair parse n w).2.trace = readCalls w.trace + 1
        ∧ readPaths (p.X509KeyPair parse n w).2.trace = readPaths w.trace ++
            [p.options.BasePath ++ p.options.PathSeparator ++ n
              ++ p.options.CertificateExtension] := by
    intro hc
    rw [X509KeyPair_eq]
    simp only [resolvedKey, if_pos hc]
    simp [readCalls_append, readPaths_append, readCalls, readPaths]
  refine ⟨?_, ?_, hok, hfail⟩
  · rw [CAPemCerts_eq]
    simp only [resolvedKey]
    split <;> simp [readCalls_append, readPaths_append, readCalls, readPaths]
  · by_cases hc : (p.reader.ReadPath (p.options.BasePath ++ p.options.PathSeparator ++ n
        ++ p.options.CertificateExtension) w.state).1.2 = none
    · exact le_of_eq (hok hc).1
    · rw [(hfail hc).1]
      exact Nat.le_succ _

/-- C8 at two tables: two reads when the certificate read succeeds and the key read
fails, one read when the certificate read fails. -/
theorem reader_call_counts_witness :
    (readCalls (failingKeyProvider.X509KeyPair acceptingParser "testing"
          emptyWorld).2.trace = 2
        ∧ readPaths (failingKeyProvider.X509KeyPair acceptingParser "testing"
          emptyWorld).2.trace = ["/testing.crt", "/testing.key"])
      ∧ (readCalls (failingCertProvider.X509KeyPair acceptingParser "testing"
          emptyWorld).2.trace = 1
        ∧ readPaths (failingCertProvider.X509KeyPair acceptingParser "testing"
          emptyWorld).2.trace = ["/testing.crt"]) :=
  ⟨(reader_call_counts acceptingParser failingKeyProvider "testing"
      emptyWorld).2.2.1 (by decide),
    (reader_call_counts acceptingParser failingCertProvider "testing"
      emptyWorld).2.2.2 (by decide)⟩

/-- C9, refuted as stated: when both reads succeed and the parser rejects the pair,
the text of the error of `X509KeyPair` is the message of the parse step followed by the
text of the parser, and contains neither the certificate key nor the private-key key. -/
theorem X509KeyPair_parse_error_names_no_key_counterexample :
    ∃ e2, (pairProvider.X509KeyPair
          (rejectingParser "tls: private key does not match public key")
          "testing" emptyWorld).1.2 = some e2
      ∧ e2.Error
          = "parse a public/private key pair: tls: private key does not match public key"
      ∧ strings.Contains e2.Error "/testing.crt" = false
      ∧ strings.Contains e2.Error "/testing.key" = false :=
  ⟨GoError.withMessage (GoError.new "tls: private key does not match public key")
      "parse a public/private key pair", by decide, by decide, by decide, by decide⟩

/-- C9, amended: every error `e2` that `X509KeyPair` returns is a wrapped cause `e`
whose text it contains, of one of three kinds. Either the certificate read failed with
`e`, and the text of `e2` contains the certificate key; or the certificate read
succeeded, the key read failed with `e`, and the text of `e2` contains the private-key
key; or both reads succeeded, the parser failed with `e` on the bytes read, and the
text of `e2` is `parse a public/private key pair: ` followed by the text of `e`, which
names the operation and no resolved key. -/
theorem X509KeyPair_errors_are_wrapped {σ : Type} (parse : tls.KeyPairParser)
    (p : PathBasedProvider σ) (n : String) (w : World σ) (e2 : GoError)
    (herr : (p.X509KeyPair parse n w).1.2 = some e2) :
    let certKey := p.options.BasePath ++ p.options.PathSeparator ++ n
      ++ p.options.CertificateExtension
    let keyKey := p.options.BasePath ++ p.options.PathSeparator ++ n
      ++ p.options.KeyExtension
    let r1 := p.reader.ReadPath certKey w.state
    let r2 := p.reader.ReadPath keyKey r1.2
    ∃ e, strings.Contains e2.Error e.Error = true
      ∧ ((r1.1.2 = some e ∧ strings.Contains e2.Error certKey = true)
        ∨ (r1.1.2 = none ∧ r2.1.2 = some e ∧ strings.Contains e2.Error keyKey = true)
        ∨ (r1.1.2 = none ∧ r2.1.2 = none ∧ (parse r1.1.1 r2.1.1).2 = some e
            ∧ e2.Error = "parse a public/private key pair: " ++ e.Error)) := by
  dsimp only
  rw [X509KeyPair_eq] at herr
  simp only [resolvedKey] at herr
  cases hc : (p.reader.ReadPath (p.options.BasePath ++ p.options.PathSeparator ++ n
      ++ p.options.CertificateExtension) w.state).1.2 with
  | some e =>
    simp [hc, errors.Wrapf] at herr
    subst herr
    exact ⟨e, (wrapped_read_error_text e _).1, Or.inl ⟨rfl, (wrapped_read_error_text e _).2⟩⟩
  | none =>
    simp only [hc, ne_eq, not_true_eq_false, if_false] at herr
    cases hk : (p.reader.ReadPath (p.options.BasePath ++ p.options.PathSeparator ++ n
        ++ p.options.KeyExtension)
        (p.reader.ReadPath (p.options.BasePath ++ p.options.PathSeparator ++ n
          ++ p.options.CertificateExtension) w.state).2).1.2 with
    | some e =>
      simp [hk, errors.Wrapf] at herr
      subst herr
      exact ⟨e, (wrapped_read_error_text e _).1,
        Or.inr (Or.inl ⟨rfl, rfl, (wrapped_read_error_text e _).2⟩)⟩
    | none =>
      simp only [hk, ne_eq, not_true_eq_false, if_false] at herr
      split at herr
      · rename_i hp
        obtain ⟨e, he⟩ := Option.ne_none_iff_exists.mp hp
        rw [← he] at herr
        simp [errors.Wrap] at herr
        subst herr
        refine ⟨e, ?_, Or.inr (Or.inr ⟨rfl, rfl, he.symm, rfl⟩)⟩
        exact strings.Contains_of_eq _ "parse a public/private key pair: " e.Error ""
          (by simp [GoError.Error])
      · exact absurd herr (by simp)

/-- C9, amended, at a failing key read: the text of the error is
`cannot read path /testing.key: some error`, with the cause and the key in it. -/
theorem X509KeyPair_errors_are_wrapped_witness :
    (failingKeyProvider.X509KeyPair acceptingParser "testing" emptyWorld).1.2
        = some (GoError.withMessage (GoError.new "some error")
            "cannot read path /testing.key")
      ∧ ∃ e, strings.Contains "cannot read path /testing.key: some error" e.Error = true
        ∧ (((failingKeyProvider.reader.ReadPath "/testing.crt" ()).1.2 = some e
              ∧ strings.Contains "cannot read path /testing.key: some error"
                  "/testing.crt" = true)
          ∨ ((failingKeyProvider.reader.ReadPath "/testing.crt" ()).1.2 = none
              ∧ (failingKeyProvider.reader.ReadPath "/testing.key" ()).1.2 = some e
              ∧ strings.Contains "cannot read path /testing.key: some error"
                  "/testing.key" = true)
          ∨ ((failingKeyProvider.reader.ReadPath "/testing.crt" ()).1.2 = none
              ∧ (failingKeyProvider.reader.ReadPath "/testing.key" ()).1.2 = none
              ∧ (acceptingParser [10, 11] []).2 = some e
              ∧ "cannot read path /testing.key: some error"
                  = "parse a public/private key pair: " ++ e.Error)) :=
  ⟨by decide,
    X509KeyPair_errors_are_wrapped acceptingParser failingKeyProvider "testing"
      emptyWorld
      (GoError.withMessage (GoError.new "some error") "cannot read path /testing.key")
      (by decide)⟩

theorem Sprintf_cannot_get_secret (path : String) :
    fmt.Sprintf "PathReader: cannot get secret value by id %s" [path]
      = "PathReader: cannot get secret value by id " ++ path := by
  apply String.ext
  simp [fmt.Sprintf, fmt.expand]

/-- What `ReadPath` of the secret-store reader does when the client fails, and when
the client answers with a response whose `SecretString` is set. -/
theorem awssecretsmanager.ReadPath_returns (client : awssecretsmanager.SecretsManager)
    (path : String) :
    (∀ e, (client.GetSecretValue { SecretId := some path }).2 = some e →
        ∃ e2, (awssecretsmanager.NewPathReader client).ReadPath path
            = GoResult.returned ([], some e2)
          ∧ strings.Contains e2.Error e.Error = true)
      ∧ (∀ o v, client.GetSecretValue { SecretId := some path } = (some o, none) →
          o.SecretString = some v →
          (awssecretsmanager.NewPathReader client).ReadPath path
            = GoResult.returned (bytesOfString v, none)) := by
  constructor
  · intro e he
    refine ⟨GoError.withMessage e
      (fmt.Sprintf "PathReader: cannot get secret value by id %s" [path]), ?_, ?_⟩
    · simp [awssecretsmanager.PathReader.ReadPath, awssecretsmanager.NewPathReader,
        aws.String, he, errors.Wrapf]
    · rw [Sprintf_cannot_get_secret]
      exact strings.Contains_of_eq _
        ("PathReader: cannot get secret value by id " ++ path ++ ": ") e.Error ""
        (by simp [GoError.Error, String.append_assoc])
  · intro o v ho hv
    simp [awssecretsmanager.PathReader.ReadPath, awssecretsmanager.NewPathReader,
      aws.String, ho, hv]

/-- C10, the code at the failing input: when the client answers without error with a
response that carries the secret as binary and leaves `SecretString` nil, `ReadPath`
dereferences the nil pointer and panics: it returns neither bytes nor an error. -/
theorem awssecretsmanager.ReadPath_binary_secret_panics :
    (awssecretsmanager.NewPathReader
        (awssecretsmanager.mockSecretsManager
          (some { Name := some "any", SecretBinary := [1, 2, 3] }) none)).ReadPath "any"
        = GoResult.panicked "invalid memory address or nil pointer dereference"
      ∧ ∀ v : Bytes × Option GoError,
          (awssecretsmanager.NewPathReader
            (awssecretsmanager.mockSecretsManager
              (some { Name := some "any", SecretBinary := [1, 2, 3] }) none)).ReadPath "any"
            ≠ GoResult.returned v := by
  refine ⟨rfl, ?_⟩
  intro v h
  exact GoResult.noConfusion (Eq.symm h)

/-- Appending to a fixed front and a fixed back loses nothing of the middle. -/
theorem strings.append_middle_cancel (front back a b : String)
    (h : front ++ a ++ back = front ++ b ++ back) : a = b := by
  apply String.ext
  have hdata := congrArg String.data h
  simp only [String.data_append, List.append_assoc] at hdata
  exact List.append_cancel_right (List.append_cancel_left hdata)

/-- C11: for every base path, separator and extension (the options `o` and any
extension), and for all names `n1` and `n2` that differ, the key that `makePath` and
`withExtension` resolve for `n1`, which is `basePath ++ separator ++ n1 ++ extension`,
differs from the one they resolve for `n2`; so through one provider `CAPemCerts` calls
the reader with different keys for the two names. -/
theorem resolved_key_injective {σ : Type} (p : PathBasedProvider σ) (extension : String)
    (n1 n2 : String) (w : World σ) (hne : n1 ≠ n2) :
    makePath p.options.PathSeparator [p.options.BasePath, withExtension n1 extension]
        ≠ makePath p.options.PathSeparator [p.options.BasePath, withExtension n2 extension]
      ∧ p.options.BasePath ++ p.options.PathSeparator ++ n1 ++ extension
          ≠ p.options.BasePath ++ p.options.PathSeparator ++ n2 ++ extension
      ∧ (p.CAPemCerts n1 w).2.trace ≠ (p.CAPemCerts n2 w).2.trace := by
  have hkey : p.options.BasePath ++ p.options.PathSeparator ++ n1 ++ extension
      ≠ p.options.BasePath ++ p.options.PathSeparator ++ n2 ++ extension :=
    fun h => hne (strings.append_middle_cancel _ _ _ _ h)
  refine ⟨?_, hkey, ?_⟩
  · rw [makePath_withExtension, makePath_withExtension]
    exact hkey
  · intro h
    have h1 : (p.CAPemCerts n1 w).2.trace = w.trace ++ [Event.readPath
        (resolvedKey p.options n1 p.options.CertificateExtension)] := by
      rw [CAPemCerts_eq]
      simp only
      split <;> rfl
    have h2 : (p.CAPemCerts n2 w).2.trace = w.trace ++ [Event.readPath
        (resolvedKey p.options n2 p.options.CertificateExtension)] := by
      rw [CAPemCerts_eq]
      simp only
      split <;> rfl
    rw [h1, h2] at h
    have h3 := List.append_cancel_left h
    simp only [List.cons.injEq, Event.readPath.injEq, and_true] at h3
    exact hne (strings.append_middle_cancel _ _ _ _ h3)

/-- C11 at the default provider: the names `ca` and `cb` resolve to the different
keys `/ca.crt` and `/cb.crt`. -/
theorem resolved_key_injective_witness :
    makePath "/" ["", withExtension "ca" ".crt"] ≠ makePath "/" ["", withExtension "cb" ".crt"]
      ∧ "/ca.crt" ≠ "/cb.crt"
      ∧ (caProvider.CAPemCerts "ca" emptyWorld).2.trace
          ≠ (caProvider.CAPemCerts "cb" emptyWorld).2.trace :=
  resolved_key_injective caProvider ".crt" "ca" "cb" emptyWorld (by decide)

end Tlskit
